import Mathlib

/-!
Shallow embedding of the careon-hub core subsystems, for checking the
specification claims C1..C10 against the source.

Conventions used throughout:
- Python `int(x)` (truncation toward zero) is modelled by `pytrunc` on `ℚ`.
- Machine integers are `ℤ`/`ℕ` (no overflow is possible in the modelled code).
- Randomness (`random.random()`, `random.uniform`, `random.randint`,
  `random.gauss`, `random.choice`) is modelled by oracle fields in a record of
  draws, one stream per call site, indexed by the loop iteration that consumes
  the draw; the contracts of the library generators (e.g. `uniform(a, b)` lands
  in `[a, b]`) appear as hypotheses or as constraints at the use site.
- Device I/O (`adb shell ...`) is modelled by oracle strings holding the
  command output, and mutating commands are recorded in an explicit trace.
-/

/-- Python `int()` applied to a float: truncation toward zero. -/
def pytrunc (q : ℚ) : ℤ := if 0 ≤ q then ⌊q⌋ else ⌈q⌉

/-- Python `str.strip()`: drop whitespace from both ends. -/
def pyStrip (s : String) : String :=
  String.mk ((((s.toList.dropWhile Char.isWhitespace).reverse).dropWhile
    Char.isWhitespace).reverse)

/-- Splitter for Python `str.split()` with no argument: maximal non-whitespace
runs, in order; `acc` holds the reversed current run. -/
def wsSplitAux (acc : List Char) : List Char → List (List Char)
  | [] => if acc.isEmpty then [] else [acc.reverse]
  | c :: rest =>
    if c.isWhitespace then
      if acc.isEmpty then wsSplitAux [] rest else acc.reverse :: wsSplitAux [] rest
    else wsSplitAux (c :: acc) rest

/-- Python `str.split()` with no argument. -/
def pySplitWs (s : String) : List String := (wsSplitAux [] s.toList).map String.mk

/-- Substring test on character lists. -/
def containsList (sub : List Char) : List Char → Bool
  | [] => sub.isEmpty
  | l@(_ :: rest) => sub.isPrefixOf l || containsList sub rest

/-- Python `sub in s`. -/
def pyContains (s sub : String) : Bool := containsList sub.toList s.toList

/-- Python `s.split(sep)` for a single-character separator. -/
def splitOnChar (sep : Char) : List Char → List (List Char)
  | [] => [[]]
  | c :: rest =>
    if c = sep then [] :: splitOnChar sep rest
    else
      match splitOnChar sep rest with
      | [] => [[c]]
      | p :: ps => (c :: p) :: ps

/-- Python `s.split("\n")`. -/
def pyLines (s : String) : List String := (splitOnChar '\n' s.toList).map String.mk

theorem pytrunc_nonneg {q : ℚ} (h : 0 ≤ q) : 0 ≤ pytrunc q := by
  unfold pytrunc
  rw [if_pos h]
  exact Int.floor_nonneg.mpr h

theorem pytrunc_le_int {q : ℚ} {d : ℤ} (h0 : 0 ≤ q) (h : q ≤ (d : ℚ)) :
    pytrunc q ≤ d := by
  unfold pytrunc
  rw [if_pos h0]
  exact (Int.floor_mono h).trans_eq (Int.floor_intCast d)

/-! ## C1 — SoulManager backup versioning (soul_manager.py)

The on-device archive directory for one persona is modelled as the list of
version numbers present, ordered by modification time, newest first (the order
produced by `ls -t`).  File names are `backup_v{N}.tar.gz`, so versions on disk
are distinct; rewriting an existing version refreshes its mtime, moving it to
the front of the order. -/

namespace SoulManager

/-- `MAX_BACKUP_VERSIONS` from app_data_paths.py. -/
def MAX_BACKUP_VERSIONS : ℕ := 3

/-- `_get_next_version`: `ls {path}/backup_v*.tar.gz | wc -l`, then
`count + 1` (an empty listing counts 0 files). -/
def get_next_version (disk : List ℕ) : ℕ := disk.length + 1

/-- `tar -czf {path}/backup_v{v}.tar.gz ...`: writes (or overwrites) the
archive of version `v`; its mtime becomes the newest. -/
def write_backup (disk : List ℕ) (v : ℕ) : List ℕ :=
  v :: disk.filter (fun w => w != v)

/-- `_cleanup_old_backups`: `ls -t ... | tail -n +(keep+1) | xargs rm -f`
keeps the `keep` newest files by mtime. -/
def cleanup_old_backups (keep : ℕ) (disk : List ℕ) : List ℕ := disk.take keep

/-- One `backup()` call as it affects the archive directory: compute the next
version as count + 1, write the archive, then prune. -/
def backup_step (disk : List ℕ) : List ℕ :=
  cleanup_old_backups MAX_BACKUP_VERSIONS (write_backup disk (get_next_version disk))

/-- Archive directory contents after `n` backups of a fresh persona. -/
def diskAfter : ℕ → List ℕ
  | 0 => []
  | n + 1 => backup_step (diskAfter n)

/-- The version number the (n+1)-th backup is written under. -/
def versionAssigned (n : ℕ) : ℕ := get_next_version (diskAfter n)

theorem diskAfter_eq (n : ℕ) :
    diskAfter n = if n ≤ 3 then (List.range' 1 n).reverse else [4, 3, 2] := by
  induction n with
  | zero => decide
  | succ n ih =>
    rw [diskAfter, ih]
    rcases Nat.lt_or_ge n 4 with h | h
    · interval_cases n <;> decide
    · rw [if_neg (by omega), if_neg (by omega)]
      decide

end SoulManager

/-- C1 (counterexample): the claim's strict monotonicity and contiguity fail
once pruning has happened.  The 4th backup is written as version 4 and pruning
deletes version 1; the 5th backup then counts 3 files and is written as
version 4 again — not strictly greater than the 4th backup's version — and the
versions on disk are 2,3,4, not contiguous starting at 1. -/
theorem C1_backup_version_counterexample :
    SoulManager.versionAssigned 3 = 4 ∧
    SoulManager.versionAssigned 4 = 4 ∧
    ¬ SoulManager.versionAssigned 3 < SoulManager.versionAssigned 4 ∧
    1 ∉ SoulManager.diskAfter 4 ∧ SoulManager.diskAfter 4 ≠ [] := by
  decide

/-- C1 (amended): a backup taken with no prior archives is written as
version 1, and versions increase strictly only while the archive count is
below the retention bound: the (n+1)-th backup is written as version
min (n+1) 4, so from the 5th backup on, version 4 is rewritten in place;
after more than 3 backups the disk holds exactly versions 4, 3, 2
(newest first) — the 3 highest versions ever assigned. -/
theorem C1_backup_version_law (n : ℕ) :
    SoulManager.versionAssigned n = min (n + 1) 4 ∧
    SoulManager.diskAfter n =
      if n ≤ 3 then (List.range' 1 n).reverse else [4, 3, 2] := by
  refine ⟨?_, SoulManager.diskAfter_eq n⟩
  rw [SoulManager.versionAssigned, SoulManager.get_next_version, SoulManager.diskAfter_eq n]
  rcases Nat.lt_or_ge n 4 with h | h
  · rw [if_pos (by omega)]
    simp only [List.length_reverse, List.length_range']
    omega
  · rw [if_neg (by omega)]
    simp only [List.length_cons, List.length_nil]
    omega

/-! ## C2 — DeviceSessionManager.rotate_ip (device_session_manager.py)

Device command outputs are supplied by a `RotateEnv` record; `_run_adb`
returns the stripped stdout of the command (empty on timeout/error). -/

namespace Sessions

/-- Outputs observed by one `rotate_ip()` run, in the order the commands are
issued.  `airplane_on_readback` is the output of
`settings get global airplane_mode_on` inside `toggle_airplane_mode(True)`;
`curl1`/`ip_addr1` feed the first `get_current_ip()` and `curl2`/`ip_addr2`
the second. -/
structure RotateEnv where
  curl1 : String
  ip_addr1 : String
  airplane_on_readback : String
  airplane_off_readback : String
  curl2 : String
  ip_addr2 : String

/-- The per-line body of `get_current_ip`'s fallback loop over
`ip addr show rmnet0` output: the first line containing `"inet "` whose
whitespace split has at least two fields yields field 1 cut at the first
slash. -/
def parse_ip_addr : List String → Option String
  | [] => none
  | line :: rest =>
    if pyContains line ("inet ") then
      let parts := pySplitWs (pyStrip line)
      if 2 ≤ parts.length then
        some (String.mk ((parts.getD 1 ("")).toList.takeWhile (fun c => c != '/')))
      else parse_ip_addr rest
    else parse_ip_addr rest

/-- `get_current_ip`: try `curl -s ifconfig.me`; if its output is non-empty
and contains a dot, return it stripped; otherwise scan
`ip addr show rmnet0`; otherwise None. -/
def get_current_ip (curlOut ipAddrOut : String) : Option String :=
  if curlOut != "" && pyContains curlOut (".") then some (pyStrip curlOut)
  else if ipAddrOut != "" then parse_ip_addr (pyLines ipAddrOut)
  else none

/-- `toggle_airplane_mode(enable)` returns whether the readback of the
airplane-mode setting, stripped, equals the requested mode. -/
def toggle_airplane_mode (enable : Bool) (readback : String) : Bool :=
  pyStrip readback == (if enable then "1" else "0")

/-- Result of `rotate_ip`, extended with the observable fact of whether the
mobile-data toggle (the secondary method) was executed. -/
structure RotateOutcome where
  ip_changed : Bool
  old_ip : Option String
  new_ip : Option String
  used_mobile_data_toggle : Bool
deriving DecidableEq

/-- `rotate_ip`: record the current address; run the airplane-mode toggle
(primary); if and only if that toggle did not verify, run the mobile-data
off/on toggle (secondary); wait; re-read the address; report
`ip_changed = (old_ip != new_ip and new_ip is not None)`. -/
def rotate_ip (env : RotateEnv) : RotateOutcome :=
  let old_ip := get_current_ip env.curl1 env.ip_addr1
  let airplane_success := toggle_airplane_mode true env.airplane_on_readback
  let _ := toggle_airplane_mode false env.airplane_off_readback
  let used_fallback := !airplane_success
  let new_ip := get_current_ip env.curl2 env.ip_addr2
  let ip_changed := (old_ip != new_ip) && new_ip.isSome
  { ip_changed := ip_changed
    old_ip := old_ip
    new_ip := new_ip
    used_mobile_data_toggle := used_fallback }

end Sessions

/-- C2 (counterexample): two runs refuting the claim.  In the first, the
airplane-mode toggle verifies but the re-read address equals the old one; the
secondary mobile-data method is nevertheless not attempted, because the code
gates the fallback on the toggle verification, never on the address.  In the
second, the old address is unreadable and the re-read parse yields the empty
string (line `inet /32`), yet the changed-flag is true — so the flag does not
require a non-empty new address. -/
theorem C2_rotate_ip_counterexample :
    (Sessions.rotate_ip
        ⟨"1.2.3.4", "", "1", "0", "1.2.3.4", ""⟩).used_mobile_data_toggle = false ∧
    (Sessions.rotate_ip
        ⟨"1.2.3.4", "", "1", "0", "1.2.3.4", ""⟩).new_ip = some ("1.2.3.4") ∧
    (Sessions.rotate_ip
        ⟨"1.2.3.4", "", "1", "0", "1.2.3.4", ""⟩).old_ip = some ("1.2.3.4") ∧
    (Sessions.rotate_ip ⟨"", "", "1", "0", "", "inet /32"⟩).ip_changed = true ∧
    (Sessions.rotate_ip ⟨"", "", "1", "0", "", "inet /32"⟩).new_ip = some ("") := by
  decide

/-- C2 (amended): the secondary method (mobile-data disable/enable) is
attempted if and only if the primary airplane-mode toggle failed to verify
(its setting readback, stripped, differs from "1"); the network address is
not re-read before that decision.  The returned changed-flag is true iff the
re-read address differs from the recorded old address and is present
(not None) — presence does not imply non-emptiness. -/
theorem C2_rotate_ip_law (env : Sessions.RotateEnv) :
    ((Sessions.rotate_ip env).used_mobile_data_toggle = true ↔
      pyStrip env.airplane_on_readback ≠ "1") ∧
    ((Sessions.rotate_ip env).ip_changed = true ↔
      ((Sessions.rotate_ip env).new_ip ≠ (Sessions.rotate_ip env).old_ip ∧
        (Sessions.rotate_ip env).new_ip ≠ none)) := by
  unfold Sessions.rotate_ip Sessions.toggle_airplane_mode
  constructor
  · simp [bne, beq_iff_eq]
  · simp only [Bool.and_eq_true, bne_iff_ne, ne_eq, Option.isSome_iff_ne_none]
    constructor
    · rintro ⟨h1, h2⟩
      exact ⟨fun h => h1 h.symm, h2⟩
    · rintro ⟨h1, h2⟩
      exact ⟨fun h => h1 h.symm, h2⟩

/-! ## C3 — DeviceSessionManager.record_pageview (device_session_manager.py) -/

namespace Sessions

/-- `SessionState` enum. -/
inductive SessionState where
  | IDLE
  | ACTIVE
  | COOLING_DOWN
  | RESETTING
  | ERROR
deriving DecidableEq

/-- The `SessionConfig` fields consumed by the session-limit logic. -/
structure SessionConfig where
  max_pageviews_per_session : ℕ := 5
  dwell_time_min_sec : ℕ := 120
  dwell_time_max_sec : ℕ := 180
  cooldown_minutes : ℕ := 30
deriving DecidableEq

/-- `SessionInfo`; wall-clock datetimes are abstracted to `ℕ` ticks. -/
structure SessionInfo where
  session_id : String
  state : SessionState
  start_time : ℕ
  pageview_count : ℕ := 0
  last_activity : Option ℕ := none
  current_ip : Option String := none
deriving DecidableEq

/-- `record_pageview`: with no current session, return False; otherwise
increment the counter and stamp activity; if the counter has reached
`max_pageviews_per_session`, force COOLING_DOWN and return False; else
return True.  `now` is the `datetime.now()` reading of this call. -/
def record_pageview (config : SessionConfig) (now : ℕ) :
    Option SessionInfo → Bool × Option SessionInfo
  | none => (false, none)
  | some s =>
    let s := { s with pageview_count := s.pageview_count + 1, last_activity := some now }
    if config.max_pageviews_per_session ≤ s.pageview_count then
      (false, some { s with state := SessionState.COOLING_DOWN })
    else
      (true, some s)

/-- Session after `n` consecutive `record_pageview` calls, the j-th call
reading time `times j`. -/
def pvRun (config : SessionConfig) (times : ℕ → ℕ) (s0 : Option SessionInfo) :
    ℕ → Option SessionInfo
  | 0 => s0
  | n + 1 => (record_pageview config (times (n + 1)) (pvRun config times s0 n)).2

/-- Return value of the n-th `record_pageview` call (n ≥ 1). -/
def pvResult (config : SessionConfig) (times : ℕ → ℕ) (s0 : Option SessionInfo)
    (n : ℕ) : Bool :=
  (record_pageview config (times n) (pvRun config times s0 (n - 1))).1

theorem pvRun_lt (config : SessionConfig) (times : ℕ → ℕ) (s0 : SessionInfo)
    (h0 : s0.pageview_count = 0) :
    ∀ j, j < config.max_pageviews_per_session →
      ∃ s, pvRun config times (some s0) j = some s ∧
        s.state = s0.state ∧ s.pageview_count = j := by
  intro j
  induction j with
  | zero => exact fun _ => ⟨s0, rfl, rfl, h0⟩
  | succ j ih =>
    intro hj
    obtain ⟨s, hs, hstate, hcount⟩ := ih (Nat.lt_of_succ_lt hj)
    refine ⟨{ s with pageview_count := s.pageview_count + 1, last_activity := some (times (j + 1)) }, ?_, hstate, by simp [hcount]⟩
    simp only [pvRun, hs, record_pageview]
    rw [if_neg (by omega)]

end Sessions

/-- C3: starting from an ACTIVE session with pageview counter 0 and a limit
L ≥ 1, each of the first L-1 `record_pageview` calls returns True and leaves
the session state unchanged (ACTIVE), and the L-th call returns False and
forces COOLING_DOWN; the forced transition happens exactly when the counter
reaches L. -/
theorem C3_pageview_limit (config : Sessions.SessionConfig) (times : ℕ → ℕ)
    (s0 : Sessions.SessionInfo) (hL : 1 ≤ config.max_pageviews_per_session)
    (hact : s0.state = Sessions.SessionState.ACTIVE) (h0 : s0.pageview_count = 0) :
    (∀ j, 1 ≤ j → j < config.max_pageviews_per_session →
      Sessions.pvResult config times (some s0) j = true ∧
      ∃ s, Sessions.pvRun config times (some s0) j = some s ∧
        s.state = Sessions.SessionState.ACTIVE ∧ s.pageview_count = j) ∧
    (Sessions.pvResult config times (some s0) config.max_pageviews_per_session = false ∧
      ∃ s, Sessions.pvRun config times (some s0) config.max_pageviews_per_session =
          some s ∧
        s.state = Sessions.SessionState.COOLING_DOWN ∧
        s.pageview_count = config.max_pageviews_per_session) := by
  constructor
  · intro j h1 hj
    obtain ⟨s, hs, hstate, hcount⟩ :=
      Sessions.pvRun_lt config times s0 h0 (j - 1) (by omega)
    obtain ⟨j', rfl⟩ : ∃ j', j = j' + 1 := ⟨j - 1, by omega⟩
    simp only [Nat.add_sub_cancel] at hs hcount
    constructor
    · simp only [Sessions.pvResult, Nat.add_sub_cancel, hs, Sessions.record_pageview]
      rw [if_neg (by omega)]
    · obtain ⟨t, ht, htstate, htcount⟩ :=
        Sessions.pvRun_lt config times s0 h0 (j' + 1) hj
      exact ⟨t, ht, htstate.trans hact, htcount⟩
  · obtain ⟨L', hL'⟩ : ∃ L', config.max_pageviews_per_session = L' + 1 :=
      ⟨config.max_pageviews_per_session - 1, by omega⟩
    obtain ⟨s, hs, hstate, hcount⟩ :=
      Sessions.pvRun_lt config times s0 h0 L' (by omega)
    constructor
    · simp only [Sessions.pvResult, hL', Nat.add_sub_cancel, hs, Sessions.record_pageview]
      rw [if_pos (by omega)]
    · refine ⟨{ s with pageview_count := s.pageview_count + 1, last_activity := some (times (L' + 1)), state := Sessions.SessionState.COOLING_DOWN }, ?_, rfl, show s.pageview_count + 1 = _ by omega⟩
      simp only [hL', Sessions.pvRun, hs, Sessions.record_pageview]
      rw [if_pos (by omega)]

/-- C3 witness: the default limit 5 — the first four calls return True and
keep the session ACTIVE; the fifth returns False and forces COOLING_DOWN. -/
theorem C3_pageview_limit_witness :
    Sessions.pvResult { } (fun _ => 0)
        (some { session_id := "s1", state := Sessions.SessionState.ACTIVE,
                start_time := 0 }) 5 = false ∧
    Sessions.pvResult { } (fun _ => 0)
        (some { session_id := "s1", state := Sessions.SessionState.ACTIVE,
                start_time := 0 }) 4 = true := by
  have h := C3_pageview_limit { } (fun _ => 0)
    { session_id := "s1", state := Sessions.SessionState.ACTIVE, start_time := 0 }
    (by decide) rfl rfl
  exact ⟨h.2.1, (h.1 4 (by decide) (by decide)).1⟩

/-! ## C4 — NaverSessionPipeline.run_campaign_workflow (traffic/pipeline)

The workflow body (steps 1–6 plus the in-try session save) performs device
I/O, so it is modelled by an oracle outcome: either the statistics assembled
on the success path or the text of the exception that aborted it.  Persona
selection is modelled by an `Except`: the manager couples a successful switch
with the selected persona. -/

namespace Pipeline

/-- The persona fields the workflow reads. -/
structure Persona where
  persona_id : String
  name : String
deriving DecidableEq

/-- Statistics the successful try-block produces for the result. -/
structure WorkStats where
  dwell_time : ℕ
  scroll_depth : ℚ
  scroll_count : ℕ
deriving DecidableEq

/-- `SessionResult` dataclass (visits elided to their count). -/
structure SessionResult where
  success : Bool
  persona_id : String
  persona_name : String
  visit_count : ℕ := 0
  total_dwell_time : ℕ := 0
  total_scrolls : ℕ := 0
  duration_sec : ℚ := 0
  error_message : Option String := none
deriving DecidableEq

/-- One run's environment: the persona-switch outcome, the try-block outcome
(`Except.error e` models a raised exception with text `e`), the measured
durations, and whether the teardown save itself raises when retried in the
`except` handler. -/
structure CampaignEnv where
  switch_outcome : Except String Persona
  step_outcome : Except String WorkStats
  duration : ℚ
  teardown_save_raises : Bool

/-- `run_campaign_workflow`, returning the result together with the cooldown
argument of the teardown `save_current_session` call (`none` when teardown
was never invoked).  On a step exception the save is re-attempted inside its
own try/except whose failure is swallowed, then a failure result carrying
`str(e)` is returned. -/
def run_campaign_workflow (cooldown_minutes : ℕ) (env : CampaignEnv) :
    SessionResult × Option ℕ :=
  match env.switch_outcome with
  | Except.error msg =>
      ({ success := false, persona_id := "", persona_name := "",
         error_message := some ("Persona switch failed: " ++ msg) }, none)
  | Except.ok persona =>
      match env.step_outcome with
      | Except.ok stats =>
          ({ success := true, persona_id := persona.persona_id,
             persona_name := persona.name, visit_count := 1,
             total_dwell_time := stats.dwell_time,
             total_scrolls := stats.scroll_count,
             duration_sec := env.duration }, some cooldown_minutes)
      | Except.error e =>
          ({ success := false, persona_id := persona.persona_id,
             persona_name := persona.name, duration_sec := env.duration,
             error_message := some e }, some cooldown_minutes)

end Pipeline

/-- C4 (counterexample): a step that raises an exception whose text is empty
(e.g. `raise Exception()`) yields `error_message = str(e) = ""` — the result
is structured and the teardown runs, but the error message is empty, not
non-empty as the claim states. -/
theorem C4_workflow_counterexample :
    (Pipeline.run_campaign_workflow 30
      { switch_outcome := Except.ok { persona_id := "p1", name := "n1" },
        step_outcome := Except.error "", duration := 0,
        teardown_save_raises := false }).1.success = false ∧
    (Pipeline.run_campaign_workflow 30
      { switch_outcome := Except.ok { persona_id := "p1", name := "n1" },
        step_outcome := Except.error "", duration := 0,
        teardown_save_raises := false }).1.error_message = some "" ∧
    (Pipeline.run_campaign_workflow 30
      { switch_outcome := Except.ok { persona_id := "p1", name := "n1" },
        step_outcome := Except.error "", duration := 0,
        teardown_save_raises := false }).2 = some 30 := by
  decide

/-- C4 (amended): whenever a workflow step raises after a persona was
selected, the pipeline catches the exception, still invokes the teardown
session save with the configured cooldown (even if that save raises in turn),
and returns a structured SessionResult with success = False whose
error_message is exactly the exception's text — non-empty whenever the
exception's text is non-empty, rather than propagating the raw exception. -/
theorem C4_workflow_teardown (cooldown_minutes : ℕ) (env : Pipeline.CampaignEnv)
    (p : Pipeline.Persona) (e : String)
    (hswitch : env.switch_outcome = Except.ok p)
    (hstep : env.step_outcome = Except.error e) :
    (Pipeline.run_campaign_workflow cooldown_minutes env).1.success = false ∧
    (Pipeline.run_campaign_workflow cooldown_minutes env).1.error_message = some e ∧
    (Pipeline.run_campaign_workflow cooldown_minutes env).1.persona_id = p.persona_id ∧
    (Pipeline.run_campaign_workflow cooldown_minutes env).2 = some cooldown_minutes := by
  simp [Pipeline.run_campaign_workflow, hswitch, hstep]

/-- C4 witness: concrete failing run with a non-empty exception text. -/
theorem C4_workflow_teardown_witness :
    (Pipeline.run_campaign_workflow 30
      { switch_outcome := Except.ok { persona_id := "p1", name := "n1" },
        step_outcome := Except.error "tab not found", duration := 2,
        teardown_save_raises := true }).1.success = false ∧
    (Pipeline.run_campaign_workflow 30
      { switch_outcome := Except.ok { persona_id := "p1", name := "n1" },
        step_outcome := Except.error "tab not found", duration := 2,
        teardown_save_raises := true }).1.error_message = some "tab not found" ∧
    (Pipeline.run_campaign_workflow 30
      { switch_outcome := Except.ok { persona_id := "p1", name := "n1" },
        step_outcome := Except.error "tab not found", duration := 2,
        teardown_save_raises := true }).1.persona_id = "p1" ∧
    (Pipeline.run_campaign_workflow 30
      { switch_outcome := Except.ok { persona_id := "p1", name := "n1" },
        step_outcome := Except.error "tab not found", duration := 2,
        teardown_save_raises := true }).2 = some 30 :=
  C4_workflow_teardown 30
    { switch_outcome := Except.ok { persona_id := "p1", name := "n1" },
      step_outcome := Except.error "tab not found", duration := 2,
      teardown_save_raises := true }
    { persona_id := "p1", name := "n1" } "tab not found" rfl rfl

/-! ## C5 — SoulManager.restore (soul_manager.py)

`restore` is modelled as a function that also returns the ordered trace of
adb shell commands it issued.  Oracles supply the outputs of the read
commands. -/

namespace SoulManager

/-- The adb shell commands `restore` and its helpers can issue. -/
inductive AdbCmd where
  | ls_latest (persona_id : String)
  | test_file (path : String)
  | am_force_stop (package : String)
  | pm_clear (package : String)
  | tar_extract (file data_path : String)
  | list_packages_uid (package : String)
  | dumpsys_uid (package : String)
  | chown (uid : ℤ) (data_path : String)
deriving DecidableEq

/-- Whether a command mutates the application's data directory. -/
def mutates_app_data : AdbCmd → Bool
  | AdbCmd.pm_clear _ => true
  | AdbCmd.tar_extract _ _ => true
  | AdbCmd.chown _ _ => true
  | _ => false

/-- The app configuration fields `restore` uses. -/
structure AppConfig where
  package : String
  data_path : String
deriving DecidableEq

/-- Device outputs read during a `restore` run. -/
structure RestoreEnv where
  ls_out : String
  file_exists : String → Bool
  pm_clear_out : String
  uid_lookup : Except String ℤ

/-- `_get_latest_soul_file`: `ls -t {base}/{id}/backup_v*.tar.gz | head -1`;
an empty (stripped) output means no archive. -/
def get_latest_soul_file (env : RestoreEnv) : Option String :=
  if env.ls_out != "" then some env.ls_out else none

/-- Continuation of `restore` once an archive path is in hand: probe it with
`test -f` (FileNotFoundError when absent); only then force-stop and
`pm clear` the app, extract the archive, and repair ownership.  The second
component is the trace of issued shell commands, in order. -/
def restore_resolved (env : RestoreEnv) (f : String) (app : AppConfig)
    (trace : List AdbCmd) : Except String Bool × List AdbCmd :=
  let trace := trace ++ [AdbCmd.test_file f]
  if env.file_exists f then
    let trace := trace ++ [AdbCmd.am_force_stop app.package,
      AdbCmd.pm_clear app.package, AdbCmd.tar_extract f app.data_path,
      AdbCmd.list_packages_uid app.package]
    match env.uid_lookup with
    | Except.error e => (Except.error e, trace)
    | Except.ok uid =>
        (Except.ok true, trace ++ [AdbCmd.chown uid app.data_path])
  else
    (Except.error ("Soul file not found: " ++ f), trace)

/-- `restore(persona_id, soul_file)`: resolve the archive — the explicit
`soul_file` when given, else the most recent one — raising FileNotFoundError
when none resolves, and continue with `restore_resolved`. -/
def restore (env : RestoreEnv) (persona_id : String) (soul_file : Option String)
    (app : AppConfig) : Except String Bool × List AdbCmd :=
  match soul_file with
  | none =>
    match get_latest_soul_file env with
    | none =>
        (Except.error ("No soul file found for persona: " ++ persona_id),
          [AdbCmd.ls_latest persona_id])
    | some f => restore_resolved env f app [AdbCmd.ls_latest persona_id]
  | some f => restore_resolved env f app []

end SoulManager

/-- C5: when no explicit soul file is given and no archive resolves as latest
(`ls -t` yields nothing), `restore` fails with the FileNotFoundError
"No soul file found for persona: ..." having issued only the (read-only)
listing command — in particular no command mutating the app's data directory,
so the data directory is unchanged. -/
theorem C5_restore_no_archive (env : SoulManager.RestoreEnv)
    (persona_id : String) (app : SoulManager.AppConfig)
    (hls : env.ls_out = "") :
    (SoulManager.restore env persona_id none app).1 =
      Except.error ("No soul file found for persona: " ++ persona_id) ∧
    (SoulManager.restore env persona_id none app).2 =
      [SoulManager.AdbCmd.ls_latest persona_id] ∧
    ∀ c ∈ (SoulManager.restore env persona_id none app).2,
      SoulManager.mutates_app_data c = false := by
  simp [SoulManager.restore, SoulManager.get_latest_soul_file, hls,
    SoulManager.mutates_app_data]

/-- C5 witness: a persona with an empty archive listing. -/
theorem C5_restore_no_archive_witness :
    (SoulManager.restore
      { ls_out := "", file_exists := fun _ => false, pm_clear_out := "",
        uid_lookup := Except.ok 281 } "persona_7" none
      { package := "com.nhn.android.search",
        data_path := "/data/data/com.nhn.android.search" }).1 =
      Except.error ("No soul file found for persona: persona_7") ∧
    (SoulManager.restore
      { ls_out := "", file_exists := fun _ => false, pm_clear_out := "",
        uid_lookup := Except.ok 281 } "persona_7" none
      { package := "com.nhn.android.search",
        data_path := "/data/data/com.nhn.android.search" }).2 =
      [SoulManager.AdbCmd.ls_latest "persona_7"] ∧
    ∀ c ∈ (SoulManager.restore
      { ls_out := "", file_exists := fun _ => false, pm_clear_out := "",
        uid_lookup := Except.ok 281 } "persona_7" none
      { package := "com.nhn.android.search",
        data_path := "/data/data/com.nhn.android.search" }).2,
      SoulManager.mutates_app_data c = false := by
  have h := C5_restore_no_archive
    { ls_out := "", file_exists := fun _ => false, pm_clear_out := "",
      uid_lookup := Except.ok 281 } "persona_7"
    { package := "com.nhn.android.search",
      data_path := "/data/data/com.nhn.android.search" } rfl
  exact ⟨by simpa using h.1, h.2.1, h.2.2⟩

/-! ## C6 / C10 — BehaviorInjector.generate_variable_scroll (behavior_injector.py)

Python floats are modelled as `ℚ`; `int(x)` is `pytrunc`.  The random draws
consumed by segment `i` of one synthesis are oracle streams indexed by `i`;
`random.uniform(0.3, 0.6)` and `random.randint(lo, hi)` contracts appear as
hypotheses where a claim needs them. -/

namespace Behavior

/-- `BehaviorConfig` (the fields the embedded functions read).
`scroll_acceleration` is the source's `scroll_acceleration_ratio` and
`scroll_deceleration` its `scroll_deceleration_ratio`. -/
structure BehaviorConfig where
  typing_delay_min_ms : ℤ := 50
  typing_delay_max_ms : ℤ := 500
  typing_error_rate : ℚ := 8 / 100
  typing_word_pause_extra_ms : ℤ := 150
  scroll_acceleration : ℚ := 25 / 100
  scroll_deceleration : ℚ := 20 / 100
  scroll_pause_probability : ℚ := 15 / 100
  scroll_pause_min_ms : ℕ := 300
  scroll_pause_max_ms : ℕ := 800
  scroll_x_variance_px : ℤ := 30
deriving DecidableEq

/-- `ScrollStyle` enum. -/
inductive ScrollStyle where
  | NATURAL
  | QUICK
  | READING
  | BROWSING
deriving DecidableEq

/-- `SwipeSegment` dataclass. -/
structure SwipeSegment where
  start_x : ℤ
  start_y : ℤ
  end_x : ℤ
  end_y : ℤ
  duration_ms : ℕ
  is_pause : Bool := false
  pause_duration_ms : ℕ := 0
deriving DecidableEq

/-- `_get_scroll_style_params` return record. -/
structure StyleParams where
  min_segments : ℕ
  max_segments : ℕ
  duration_min : ℕ
  duration_max : ℕ
  pause_probability : ℚ
deriving DecidableEq

/-- `_get_scroll_style_params`. -/
def get_scroll_style_params (cfg : BehaviorConfig) : ScrollStyle → StyleParams
  | ScrollStyle.QUICK =>
      { min_segments := 2, max_segments := 3, duration_min := 100,
        duration_max := 200, pause_probability := 5 / 100 }
  | ScrollStyle.READING =>
      { min_segments := 4, max_segments := 6, duration_min := 400,
        duration_max := 700, pause_probability := 35 / 100 }
  | ScrollStyle.BROWSING =>
      { min_segments := 3, max_segments := 4, duration_min := 200,
        duration_max := 400, pause_probability := 20 / 100 }
  | ScrollStyle.NATURAL =>
      { min_segments := 3, max_segments := 5, duration_min := 150,
        duration_max := 350, pause_probability := cfg.scroll_pause_probability }

/-- Random draws consumed by one `generate_variable_scroll` call:
`num_segments` is the `randint(min_segments, max_segments)` draw; for
segment `i`, `seg_frac i` is the middle-segment `uniform(0.3, 0.6)` draw,
`dur i` the duration `randint`, `sx_off i`/`ex_off i` the
`randint(-30, 30)` x-wobbles, `pause_draw i` the `random.random()` pause
gate, and `pause_dur i` the pause-duration `randint`. -/
structure ScrollRand where
  num_segments : ℕ
  seg_frac : ℕ → ℚ
  dur : ℕ → ℕ
  sx_off : ℕ → ℤ
  ex_off : ℕ → ℤ
  pause_draw : ℕ → ℚ
  pause_dur : ℕ → ℕ

/-- The `seg_distance` computed for segment `i` (of `n`): the acceleration
segment covers `int(distance * accel)`, the last segment all of `remaining`,
middle segments `min(int(remaining * uniform(0.3, 0.6)), remaining)`. -/
def seg_distance (cfg : BehaviorConfig) (rand : ScrollRand) (n : ℕ)
    (dist : ℤ) (i : ℕ) (remaining : ℤ) : ℤ :=
  if i = 0 then pytrunc ((dist : ℚ) * cfg.scroll_acceleration)
  else if i = n - 1 then remaining
  else min (pytrunc ((remaining : ℚ) * rand.seg_frac i)) remaining

/-- Loop body of `generate_variable_scroll` over the remaining segment
indices, carrying `current_y`; after every segment but the last, a
stationary pause segment is inserted when the pause gate fires. -/
def scroll_step (cfg : BehaviorConfig) (sp : StyleParams) (rand : ScrollRand)
    (screen_width dist dir endY : ℤ) : List ℕ → ℤ → List SwipeSegment
  | [], _ => []
  | i :: rest, current_y =>
    let next_y := current_y +
      seg_distance cfg rand rand.num_segments dist i |endY - current_y| * dir
    let center_x := Int.fdiv screen_width 2
    let sx := center_x + rand.sx_off i
    let ex := center_x + rand.ex_off i
    let move : SwipeSegment := ⟨sx, current_y, ex, next_y, rand.dur i, false, 0⟩
    let rest_segs := scroll_step cfg sp rand screen_width dist dir endY rest next_y
    if i < rand.num_segments - 1 ∧ rand.pause_draw i < sp.pause_probability then
      move :: ⟨ex, next_y, ex, next_y, 0, true, rand.pause_dur i⟩ :: rest_segs
    else
      move :: rest_segs

/-- `generate_variable_scroll(start_y, end_y, screen_width, style)`. -/
def generate_variable_scroll (cfg : BehaviorConfig) (rand : ScrollRand)
    (start_y end_y screen_width : ℤ) (style : ScrollStyle) : List SwipeSegment :=
  let dist : ℤ := |end_y - start_y|
  let dir : ℤ := if start_y < end_y then 1 else -1
  let sp := get_scroll_style_params cfg style
  scroll_step cfg sp rand screen_width dist dir end_y
    (List.range rand.num_segments) start_y

/-- Total signed vertical distance of a segment list. -/
def sumDeltas (l : List SwipeSegment) : ℤ :=
  (l.map (fun s => s.end_y - s.start_y)).sum

theorem min_segments_ge_two (cfg : BehaviorConfig) (style : ScrollStyle) :
    2 ≤ (get_scroll_style_params cfg style).min_segments := by
  cases style <;> norm_num [get_scroll_style_params]

theorem abs_sub_mul_dir {endY y dir : ℤ} (hdir : dir = 1 ∨ dir = -1)
    (hinv : 0 ≤ (endY - y) * dir) : |endY - y| * dir = endY - y := by
  rcases hdir with rfl | rfl
  · rw [mul_one] at hinv ⊢
    exact abs_of_nonneg hinv
  · rw [mul_neg_one] at hinv ⊢
    rw [abs_of_nonpos (by omega), neg_neg]

theorem seg_distance_bounds (cfg : BehaviorConfig) (rand : ScrollRand)
    (dist : ℤ) (i : ℕ) (remaining : ℤ)
    (haccel0 : 0 ≤ cfg.scroll_acceleration)
    (haccel1 : cfg.scroll_acceleration ≤ 1)
    (hfrac : 0 ≤ rand.seg_frac i)
    (hd : 0 ≤ dist) (hr : 0 ≤ remaining)
    (hne : ¬ i = rand.num_segments - 1) :
    0 ≤ seg_distance cfg rand rand.num_segments dist i remaining ∧
      seg_distance cfg rand rand.num_segments dist i remaining ≤
        (if i = 0 then dist else remaining) := by
  unfold seg_distance
  by_cases h0 : i = 0
  · rw [if_pos h0, if_pos h0]
    have hq0 : (0 : ℚ) ≤ (dist : ℚ) * cfg.scroll_acceleration :=
      mul_nonneg (by exact_mod_cast hd) haccel0
    refine ⟨pytrunc_nonneg hq0, pytrunc_le_int hq0 ?_⟩
    calc (dist : ℚ) * cfg.scroll_acceleration ≤ (dist : ℚ) * 1 := by
          exact mul_le_mul_of_nonneg_left haccel1 (by exact_mod_cast hd)
      _ = (dist : ℚ) := mul_one _
  · rw [if_neg h0, if_neg h0, if_neg hne]
    have hq0 : (0 : ℚ) ≤ (remaining : ℚ) * rand.seg_frac i :=
      mul_nonneg (by exact_mod_cast hr) hfrac
    exact ⟨le_min (pytrunc_nonneg hq0) hr, min_le_right _ _⟩

theorem scroll_step_sum (cfg : BehaviorConfig) (sp : StyleParams)
    (rand : ScrollRand) (screen_width startY endY dist dir : ℤ)
    (hdist : dist = |endY - startY|)
    (hdir : dir = if startY < endY then 1 else -1)
    (haccel0 : 0 ≤ cfg.scroll_acceleration)
    (haccel1 : cfg.scroll_acceleration ≤ 1)
    (hfrac : ∀ i, 0 ≤ rand.seg_frac i)
    (hn2 : 2 ≤ rand.num_segments) :
    ∀ (b a : ℕ) (y : ℤ), a + b = rand.num_segments → 1 ≤ b →
      (a = 0 → y = startY) → 0 ≤ (endY - y) * dir →
      sumDeltas (scroll_step cfg sp rand screen_width dist dir endY
        (List.range' a b) y) = endY - y := by
  have hdir' : dir = 1 ∨ dir = -1 := by
    rw [hdir]; split <;> simp
  have hdirsq : dir * dir = 1 := by rcases hdir' with rfl | rfl <;> norm_num
  have habs : ∀ z : ℤ, 0 ≤ (endY - z) * dir → |endY - z| = (endY - z) * dir := by
    intro z hz
    have h1 := abs_sub_mul_dir hdir' hz
    calc |endY - z| = |endY - z| * (dir * dir) := by rw [hdirsq, mul_one]
      _ = (|endY - z| * dir) * dir := by ring
      _ = (endY - z) * dir := by rw [h1]
  have hdist' : dist = (endY - startY) * dir := by
    rw [hdist, hdir]
    split
    · rw [mul_one]; exact abs_of_nonneg (by omega)
    · rw [mul_neg_one]; exact abs_of_nonpos (by omega)
  have hd0 : 0 ≤ dist := hdist ▸ abs_nonneg _
  intro b
  induction b with
  | zero => intro a y _ hb; omega
  | succ b ih =>
    intro a y hab _ ha0 hinv
    rw [List.range'_succ]
    simp only [scroll_step]
    rcases Nat.eq_zero_or_pos b with hb0 | hb1
    · -- last segment: a = n - 1, which covers all of the remainder
      subst hb0
      have ha : a = rand.num_segments - 1 := by omega
      have hane : ¬ a = 0 := by omega
      have hlast : ¬ (a < rand.num_segments - 1 ∧
          rand.pause_draw a < sp.pause_probability) := by
        rintro ⟨h, -⟩; omega
      rw [if_neg hlast]
      rw [seg_distance, if_neg hane, if_pos ha]
      simp only [List.range'_zero, scroll_step, sumDeltas, List.map_cons,
        List.map_nil, List.sum_cons, List.sum_nil]
      have h1 := abs_sub_mul_dir hdir' hinv
      omega
    · -- not the last segment: bounded advance, then the tail absorbs the rest
      have hane : ¬ a = rand.num_segments - 1 := by omega
      obtain ⟨hsd0, hsd1⟩ := seg_distance_bounds cfg rand dist a |endY - y|
        haccel0 haccel1 (hfrac a) hd0 (abs_nonneg _) hane
      set sd := seg_distance cfg rand rand.num_segments dist a |endY - y| with hsd
      have hsdle : sd ≤ (endY - y) * dir := by
        by_cases h0 : a = 0
        · rw [if_pos h0] at hsd1
          have hy : y = startY := ha0 h0
        -- with y = startY the total distance equals (endY - y) * dir
          rw [hy]
          exact hsd1.trans_eq hdist'
        · rw [if_neg h0] at hsd1
          exact hsd1.trans_eq (habs y hinv)
      have hnext : 0 ≤ (endY - (y + sd * dir)) * dir := by
        have hexp : (endY - (y + sd * dir)) * dir = (endY - y) * dir - sd * (dir * dir) := by
          ring
        rw [hexp, hdirsq, mul_one]
        omega
      have htail := ih (a + 1) (y + sd * dir) (by omega) hb1 (by omega) hnext
      by_cases hp : a < rand.num_segments - 1 ∧
          rand.pause_draw a < sp.pause_probability
      · rw [if_pos hp]
        simp only [sumDeltas, List.map_cons, List.sum_cons] at htail ⊢
        omega
      · rw [if_neg hp]
        simp only [sumDeltas, List.map_cons, List.sum_cons] at htail ⊢
        omega

theorem scroll_step_ne_nil (cfg : BehaviorConfig) (sp : StyleParams)
    (rand : ScrollRand) (screen_width dist dir endY : ℤ) (i : ℕ)
    (rest : List ℕ) (y : ℤ) :
    scroll_step cfg sp rand screen_width dist dir endY (i :: rest) y ≠ [] := by
  simp only [scroll_step]
  split <;> simp

theorem scroll_step_pause_stationary (cfg : BehaviorConfig) (sp : StyleParams)
    (rand : ScrollRand) (screen_width dist dir endY : ℤ) :
    ∀ (idxs : List ℕ) (y : ℤ) (s : SwipeSegment),
      s ∈ scroll_step cfg sp rand screen_width dist dir endY idxs y →
      s.is_pause = true →
      s.start_x = s.end_x ∧ s.start_y = s.end_y ∧ s.duration_ms = 0 := by
  intro idxs
  induction idxs with
  | nil => intro y s hs; simp [scroll_step] at hs
  | cons i rest ih =>
    intro y s hs hp
    simp only [scroll_step] at hs
    split at hs
    · rcases List.mem_cons.mp hs with rfl | hs
      · simp at hp
      · rcases List.mem_cons.mp hs with rfl | hs
        · exact ⟨rfl, rfl, rfl⟩
        · exact ih _ s hs hp
    · rcases List.mem_cons.mp hs with rfl | hs
      · simp at hp
      · exact ih _ s hs hp

theorem scroll_step_getLast (cfg : BehaviorConfig) (sp : StyleParams)
    (rand : ScrollRand) (screen_width dist dir endY : ℤ) :
    ∀ (b a : ℕ) (y : ℤ), 1 ≤ b → a + b = rand.num_segments →
      ∀ s, (scroll_step cfg sp rand screen_width dist dir endY
        (List.range' a b) y).getLast? = some s → s.is_pause = false := by
  intro b
  induction b with
  | zero => intro a y hb; omega
  | succ b ih =>
    intro a y _ hab s hs
    rw [List.range'_succ] at hs
    simp only [scroll_step] at hs
    rcases Nat.eq_zero_or_pos b with hb0 | hb1
    · subst hb0
      have hguard : ¬ (a < rand.num_segments - 1 ∧
          rand.pause_draw a < sp.pause_probability) := by
        rintro ⟨h, -⟩; omega
      rw [if_neg hguard] at hs
      simp only [List.range'_zero, scroll_step] at hs
      simp only [List.getLast?_singleton, Option.some.injEq] at hs
      rw [← hs]
    · obtain ⟨b', rfl⟩ : ∃ b', b = b' + 1 := ⟨b - 1, by omega⟩
      rw [List.range'_succ] at hs
      have hne := scroll_step_ne_nil cfg sp rand screen_width dist dir endY
        (a + 1) (List.range' (a + 2) b')
      split at hs
      · obtain ⟨z, l', hzl⟩ := List.exists_cons_of_ne_nil (hne _)
        rw [hzl, List.getLast?_cons_cons, List.getLast?_cons_cons, ← hzl] at hs
        have := ih (a + 1) _ (by omega) (by omega) s (by rw [List.range'_succ]; exact hs)
        exact this
      · obtain ⟨z, l', hzl⟩ := List.exists_cons_of_ne_nil (hne _)
        rw [hzl, List.getLast?_cons_cons, ← hzl] at hs
        exact ih (a + 1) _ (by omega) (by omega) s (by rw [List.range'_succ]; exact hs)

end Behavior

/-- C6: for every scroll synthesis — any start/end y, screen width and style,
any segment-count draw within the style's range, any middle-segment fraction
draws within uniform(0.3, 0.6), and an acceleration fraction in [0, 1] as
configured (default 0.25) — the sum over all returned segments of the signed
vertical distance equals exactly the requested total `end_y - start_y`; the
last movement segment absorbs the exact remainder, so integer truncation
never drifts. -/
theorem C6_scroll_distance_exact (cfg : Behavior.BehaviorConfig)
    (rand : Behavior.ScrollRand) (start_y end_y screen_width : ℤ)
    (style : Behavior.ScrollStyle)
    (haccel : 0 ≤ cfg.scroll_acceleration ∧ cfg.scroll_acceleration ≤ 1)
    (hn : (Behavior.get_scroll_style_params cfg style).min_segments ≤
        rand.num_segments ∧
      rand.num_segments ≤ (Behavior.get_scroll_style_params cfg style).max_segments)
    (hfrac : ∀ i, 3 / 10 ≤ rand.seg_frac i ∧ rand.seg_frac i ≤ 3 / 5) :
    Behavior.sumDeltas (Behavior.generate_variable_scroll cfg rand
      start_y end_y screen_width style) = end_y - start_y := by
  have hn2 : 2 ≤ rand.num_segments :=
    le_trans (Behavior.min_segments_ge_two cfg style) hn.1
  have hinv : 0 ≤ (end_y - start_y) * (if start_y < end_y then (1 : ℤ) else -1) := by
    split
    · rw [mul_one]; omega
    · rw [mul_neg_one]; omega
  have h := Behavior.scroll_step_sum cfg (Behavior.get_scroll_style_params cfg style)
    rand screen_width start_y end_y |end_y - start_y|
    (if start_y < end_y then 1 else -1) rfl rfl haccel.1 haccel.2
    (fun i => le_trans (by norm_num) (hfrac i).1) hn2
    rand.num_segments 0 start_y (by omega) (by omega) (fun _ => rfl) hinv
  simpa [Behavior.generate_variable_scroll, List.range_eq_range'] using h

/-- C6 witness: a concrete downward scroll of 800 px in 3 natural-style
segments sums to exactly -800... here an upward scroll from 1600 to 800. -/
theorem C6_scroll_distance_exact_witness :
    Behavior.sumDeltas (Behavior.generate_variable_scroll { }
      { num_segments := 3, seg_frac := fun _ => 1 / 2, dur := fun _ => 100,
        sx_off := fun _ => 5, ex_off := fun _ => -5, pause_draw := fun _ => 0,
        pause_dur := fun _ => 500 }
      1600 800 1080 Behavior.ScrollStyle.NATURAL) = 800 - 1600 :=
  C6_scroll_distance_exact { }
    { num_segments := 3, seg_frac := fun _ => 1 / 2, dur := fun _ => 100,
      sx_off := fun _ => 5, ex_off := fun _ => -5, pause_draw := fun _ => 0,
      pause_dur := fun _ => 500 }
    1600 800 1080 Behavior.ScrollStyle.NATURAL (by norm_num)
    (by norm_num [Behavior.get_scroll_style_params])
    (fun i => by norm_num)

/-- C10: in every segment list returned by `generate_variable_scroll`, every
pause segment is stationary — start coordinates equal end coordinates and
its movement duration is 0 — and the final segment of the list is never a
pause segment (pauses are only inserted after non-final movement
segments). -/
theorem C10_scroll_pause_invariants (cfg : Behavior.BehaviorConfig)
    (rand : Behavior.ScrollRand) (start_y end_y screen_width : ℤ)
    (style : Behavior.ScrollStyle) :
    (∀ s ∈ Behavior.generate_variable_scroll cfg rand start_y end_y
        screen_width style,
      s.is_pause = true →
        s.start_x = s.end_x ∧ s.start_y = s.end_y ∧ s.duration_ms = 0) ∧
    (∀ s, (Behavior.generate_variable_scroll cfg rand start_y end_y
        screen_width style).getLast? = some s → s.is_pause = false) := by
  constructor
  · intro s hs hp
    exact Behavior.scroll_step_pause_stationary cfg _ rand screen_width _ _ _
      _ _ s hs hp
  · intro s hs
    rcases Nat.eq_zero_or_pos rand.num_segments with h0 | h1
    · rw [Behavior.generate_variable_scroll] at hs
      simp only [h0, List.range_zero, Behavior.scroll_step,
        List.getLast?_nil] at hs
      exact absurd hs (by simp)
    · rw [Behavior.generate_variable_scroll, List.range_eq_range'] at hs
      exact Behavior.scroll_step_getLast cfg _ rand screen_width _ _ _
        rand.num_segments 0 start_y h1 (by omega) s hs

/-- C10 witness: a concrete natural-style scroll whose pause gate fires after
the first segment; the inserted pause segment is stationary and the list
ends in a movement segment. -/
theorem C10_scroll_pause_invariants_witness :
    ((⟨540, 200, 540, 200, 0, true, 500⟩ : Behavior.SwipeSegment).start_x =
        (⟨540, 200, 540, 200, 0, true, 500⟩ : Behavior.SwipeSegment).end_x ∧
      (⟨540, 200, 540, 200, 0, true, 500⟩ : Behavior.SwipeSegment).start_y =
        (⟨540, 200, 540, 200, 0, true, 500⟩ : Behavior.SwipeSegment).end_y ∧
      (⟨540, 200, 540, 200, 0, true, 500⟩ : Behavior.SwipeSegment).duration_ms = 0) ∧
    (⟨540, 500, 540, 800, 100, false, 0⟩ : Behavior.SwipeSegment).is_pause = false := by
  have hout : Behavior.generate_variable_scroll { }
      { num_segments := 3, seg_frac := fun _ => 1 / 2, dur := fun _ => 100,
        sx_off := fun _ => 0, ex_off := fun _ => 0, pause_draw := fun _ => 0,
        pause_dur := fun _ => 500 }
      0 800 1080 Behavior.ScrollStyle.NATURAL =
      [⟨540, 0, 540, 200, 100, false, 0⟩, ⟨540, 200, 540, 200, 0, true, 500⟩,
        ⟨540, 200, 540, 500, 100, false, 0⟩, ⟨540, 500, 540, 500, 0, true, 500⟩,
        ⟨540, 500, 540, 800, 100, false, 0⟩] := by
    norm_num [Behavior.generate_variable_scroll, Behavior.scroll_step,
      Behavior.seg_distance, Behavior.get_scroll_style_params, pytrunc,
      List.range_succ, Int.fdiv]
  have h := C10_scroll_pause_invariants { }
    { num_segments := 3, seg_frac := fun _ => 1 / 2, dur := fun _ => 100,
      sx_off := fun _ => 0, ex_off := fun _ => 0, pause_draw := fun _ => 0,
      pause_dur := fun _ => 500 } 0 800 1080 Behavior.ScrollStyle.NATURAL
  refine ⟨h.1 ⟨540, 200, 540, 200, 0, true, 500⟩ (by rw [hout]; simp) rfl, ?_⟩
  exact h.2 _ (by rw [hout]; rfl)

/-! ## C7 — generate_curved_path (adb_enhanced.py)

Python floats become `ℚ`.  The Euclidean path length, computed by the source
as `math.sqrt(dx*dx + dy*dy)`, is passed in as the parameter `dist`
(hypothesised non-negative); the claim's jitter cap is stated relative to it.
`perlin_noise_1d` is a weighted sum `0.5*sin + 0.3*sin + 0.2*sin` of unit
sines, so its value lies in [-1, 1]; each of the two seeded noise channels is
an oracle function carrying that bound as a hypothesis. -/

namespace AdbEnhanced

/-- `ease_in_out_cubic`. -/
def ease_in_out_cubic (t : ℚ) : ℚ :=
  if t < 1 / 2 then 4 * t ^ 3 else 1 - (-2 * t + 2) ^ 3 / 2

/-- Random draws of one `generate_curved_path` call: the curve-intensity
`uniform(0.1, 0.25)` draw, the control-point offset
`uniform(-max_offset, max_offset)` draw, and the two seeded
`perlin_noise_1d` channels (for x and for y). -/
structure PathRand where
  curve_intensity : ℚ
  offset : ℚ
  noise_x : ℚ → ℚ
  noise_y : ℚ → ℚ

/-- Point-count reduction for short swipes: paths of length ≤ 100 px use
`max(5, int(num_points / 3))` points. -/
def effective_num_points (num_points : ℕ) (dist : ℚ) : ℕ :=
  if dist ≤ 100 then (max (5 : ℤ) (pytrunc ((num_points : ℚ) / 3))).toNat
  else num_points

/-- The perturbed Bézier control point (x then y): the midpoint displaced
along the unit perpendicular of the travel direction by the offset draw
(the midpoint itself for a degenerate zero-length path). -/
def control_point (start_x start_y end_x end_y : ℤ) (dist : ℚ)
    (rand : PathRand) : ℚ × ℚ :=
  let mid_x : ℚ := ((start_x : ℚ) + (end_x : ℚ)) / 2
  let mid_y : ℚ := ((start_y : ℚ) + (end_y : ℚ)) / 2
  let dx : ℚ := (end_x : ℚ) - (start_x : ℚ)
  let dy : ℚ := (end_y : ℚ) - (start_y : ℚ)
  if 0 < dist then (mid_x + (-dy / dist) * rand.offset, mid_y + (dx / dist) * rand.offset)
  else (mid_x, mid_y)

/-- The i-th sampled point (of `n`): quadratic Bézier at the
ease-in-out-cubic warp of `i / (n - 1)`, plus seeded sinusoidal jitter
scaled by `min(2, distance * 0.01)`, truncated to integer pixels. -/
def curved_point (start_x start_y end_x end_y : ℤ) (dist : ℚ)
    (rand : PathRand) (n i : ℕ) : ℤ × ℤ :=
  let control := control_point start_x start_y end_x end_y dist rand
  let jitter_intensity : ℚ := min 2 (dist * (1 / 100))
  let linear_t : ℚ := (i : ℚ) / ((n : ℚ) - 1)
  let eased_t := ease_in_out_cubic linear_t
  let x : ℚ := (1 - eased_t) ^ 2 * (start_x : ℚ) +
    2 * (1 - eased_t) * eased_t * control.1 + eased_t ^ 2 * (end_x : ℚ)
  let y : ℚ := (1 - eased_t) ^ 2 * (start_y : ℚ) +
    2 * (1 - eased_t) * eased_t * control.2 + eased_t ^ 2 * (end_y : ℚ)
  let jitter_x := rand.noise_x (linear_t * 10) * jitter_intensity
  let jitter_y := rand.noise_y (linear_t * 10) * jitter_intensity
  (pytrunc (x + jitter_x), pytrunc (y + jitter_y))

/-- `generate_curved_path(start_x, start_y, end_x, end_y, num_points)`. -/
def generate_curved_path (start_x start_y end_x end_y : ℤ) (num_points : ℕ)
    (dist : ℚ) (rand : PathRand) : List (ℤ × ℤ) :=
  let n := effective_num_points num_points dist
  (List.range n).map (curved_point start_x start_y end_x end_y dist rand n)

end AdbEnhanced

theorem pytrunc_int_add_bound (a : ℤ) (j c : ℚ) (hj : |j| ≤ c) :
    |((pytrunc ((a : ℚ) + j) : ℤ) : ℚ) - (a : ℚ)| ≤ c + 1 := by
  have hc : 0 ≤ c := le_trans (abs_nonneg j) hj
  obtain ⟨hj1, hj2⟩ := abs_le.mp hj
  unfold pytrunc
  split
  · rw [Int.floor_int_add]
    push_cast
    rw [add_sub_cancel_left]
    rw [abs_le]
    constructor
    · have h1 : j - 1 < (⌊j⌋ : ℚ) := Int.sub_one_lt_floor j
      linarith
    · have h2 : (⌊j⌋ : ℚ) ≤ j := Int.floor_le j
      linarith
  · rw [add_comm, Int.ceil_add_int]
    push_cast
    rw [add_sub_cancel_right]
    rw [abs_le]
    constructor
    · have h1 : j ≤ (⌈j⌉ : ℚ) := Int.le_ceil j
      linarith
    · have h2 : (⌈j⌉ : ℚ) < j + 1 := Int.ceil_lt_add_one j
      linarith

namespace AdbEnhanced

theorem ease_zero : ease_in_out_cubic 0 = 0 := by
  norm_num [ease_in_out_cubic]

theorem ease_one : ease_in_out_cubic 1 = 1 := by
  norm_num [ease_in_out_cubic]

theorem curved_point_zero (start_x start_y end_x end_y : ℤ) (dist : ℚ)
    (rand : PathRand) (n : ℕ) :
    curved_point start_x start_y end_x end_y dist rand n 0 =
      (pytrunc ((start_x : ℚ) + rand.noise_x 0 * min 2 (dist * (1 / 100))),
        pytrunc ((start_y : ℚ) + rand.noise_y 0 * min 2 (dist * (1 / 100)))) := by
  unfold curved_point
  norm_num [ease_zero]

theorem curved_point_one (start_x start_y end_x end_y : ℤ) (dist : ℚ)
    (rand : PathRand) (n i : ℕ) (ht : (i : ℚ) / ((n : ℚ) - 1) = 1) :
    curved_point start_x start_y end_x end_y dist rand n i =
      (pytrunc ((end_x : ℚ) + rand.noise_x 10 * min 2 (dist * (1 / 100))),
        pytrunc ((end_y : ℚ) + rand.noise_y 10 * min 2 (dist * (1 / 100)))) := by
  unfold curved_point
  norm_num [ht, ease_one]

theorem curved_point_last (start_x start_y end_x end_y : ℤ) (dist : ℚ)
    (rand : PathRand) (m : ℕ) (hm : 1 ≤ m) :
    curved_point start_x start_y end_x end_y dist rand (m + 1) m =
      (pytrunc ((end_x : ℚ) + rand.noise_x 10 * min 2 (dist * (1 / 100))),
        pytrunc ((end_y : ℚ) + rand.noise_y 10 * min 2 (dist * (1 / 100)))) := by
  refine curved_point_one start_x start_y end_x end_y dist rand (m + 1) m ?_
  push_cast
  rw [add_sub_cancel_right]
  exact div_self (Nat.cast_ne_zero.mpr (by omega))

end AdbEnhanced

/-- C7: for every synthesized touch path — any integer endpoints, any
`num_points ≥ 2`, any non-negative path length `dist` (the source's
`sqrt(dx² + dy²)`), and every draw of the random source whose two noise
channels stay within the unit band of `perlin_noise_1d` — the path is
non-empty, its first sampled point equals the requested start and its last
sampled point equals the requested end, each coordinate within the jitter
amplitude cap `min(2 px, 1% of path length)` plus 1 px of integer
truncation. -/
theorem C7_curved_path_endpoints (start_x start_y end_x end_y : ℤ)
    (num_points : ℕ) (dist : ℚ) (rand : AdbEnhanced.PathRand)
    (hnp : 2 ≤ num_points) (hdist : 0 ≤ dist)
    (hnx : ∀ w, |rand.noise_x w| ≤ 1) (hny : ∀ w, |rand.noise_y w| ≤ 1) :
    AdbEnhanced.generate_curved_path start_x start_y end_x end_y num_points
      dist rand ≠ [] ∧
    (∀ p, (AdbEnhanced.generate_curved_path start_x start_y end_x end_y
        num_points dist rand).head? = some p →
      |(p.1 : ℚ) - (start_x : ℚ)| ≤ min 2 (dist * (1 / 100)) + 1 ∧
      |(p.2 : ℚ) - (start_y : ℚ)| ≤ min 2 (dist * (1 / 100)) + 1) ∧
    (∀ p, (AdbEnhanced.generate_curved_path start_x start_y end_x end_y
        num_points dist rand).getLast? = some p →
      |(p.1 : ℚ) - (end_x : ℚ)| ≤ min 2 (dist * (1 / 100)) + 1 ∧
      |(p.2 : ℚ) - (end_y : ℚ)| ≤ min 2 (dist * (1 / 100)) + 1) := by
  have hjc0 : 0 ≤ min 2 (dist * (1 / 100)) :=
    le_min (by norm_num) (mul_nonneg hdist (by norm_num))
  have hb : ∀ (z : ℚ) (a : ℤ) (f : ℚ → ℚ), (∀ w, |f w| ≤ 1) →
      |((pytrunc ((a : ℚ) + f z * min 2 (dist * (1 / 100))) : ℤ) : ℚ) - (a : ℚ)| ≤
        min 2 (dist * (1 / 100)) + 1 := by
    intro z a f hf
    refine pytrunc_int_add_bound a _ _ ?_
    calc |f z * min 2 (dist * (1 / 100))| = |f z| * |min 2 (dist * (1 / 100))| :=
          abs_mul _ _
      _ ≤ 1 * min 2 (dist * (1 / 100)) := by
          rw [abs_of_nonneg hjc0]
          exact mul_le_mul_of_nonneg_right (hf z) hjc0
      _ = min 2 (dist * (1 / 100)) := one_mul _
  have hn2 : 2 ≤ AdbEnhanced.effective_num_points num_points dist := by
    rw [AdbEnhanced.effective_num_points]
    split
    · have h5 : (5 : ℤ) ≤ max 5 (pytrunc ((num_points : ℚ) / 3)) := le_max_left _ _
      omega
    · exact hnp
  obtain ⟨m, hm⟩ : ∃ m, AdbEnhanced.effective_num_points num_points dist = m + 1 :=
    ⟨AdbEnhanced.effective_num_points num_points dist - 1, by omega⟩
  have hm1 : 1 ≤ m := by omega
  refine ⟨?_, ?_, ?_⟩
  · simp only [AdbEnhanced.generate_curved_path, hm, ne_eq, List.map_eq_nil_iff,
      List.range_eq_nil]
    omega
  · intro p hp
    rw [AdbEnhanced.generate_curved_path] at hp
    simp only [hm, List.range_succ_eq_map, List.map_cons, List.head?_cons,
      Option.some.injEq] at hp
    rw [← hp, AdbEnhanced.curved_point_zero]
    exact ⟨hb 0 start_x rand.noise_x hnx, hb 0 start_y rand.noise_y hny⟩
  · intro p hp
    rw [AdbEnhanced.generate_curved_path] at hp
    simp only [hm, List.range_succ, List.map_append, List.map_cons,
      List.map_nil, List.getLast?_concat, Option.some.injEq] at hp
    rw [← hp, AdbEnhanced.curved_point_last start_x start_y end_x end_y dist
      rand m hm1]
    exact ⟨hb 10 end_x rand.noise_x hnx, hb 10 end_y rand.noise_y hny⟩

/-- C7 witness: the 3-4-5 path from (0,0) to (30,40) (length 50) with two
requested points (reduced to 5 by the short-path rule) and silent noise: the
first point is exactly the start and the last exactly the end, within the
0.5 px jitter cap plus truncation. -/
theorem C7_curved_path_endpoints_witness :
    AdbEnhanced.generate_curved_path 0 0 30 40 2 50
      { curve_intensity := 1 / 10, offset := 0, noise_x := fun _ => 0,
        noise_y := fun _ => 0 } ≠ [] ∧
    (AdbEnhanced.generate_curved_path 0 0 30 40 2 50
      { curve_intensity := 1 / 10, offset := 0, noise_x := fun _ => 0,
        noise_y := fun _ => 0 }).head? = some (0, 0) ∧
    (AdbEnhanced.generate_curved_path 0 0 30 40 2 50
      { curve_intensity := 1 / 10, offset := 0, noise_x := fun _ => 0,
        noise_y := fun _ => 0 }).getLast? = some (30, 40) ∧
    |((30 : ℤ) : ℚ) - ((30 : ℤ) : ℚ)| ≤ min 2 ((50 : ℚ) * (1 / 100)) + 1 := by
  have hn5 : AdbEnhanced.effective_num_points 2 50 = 5 := by
    rw [AdbEnhanced.effective_num_points, if_pos (by norm_num)]
    have h23 : pytrunc ((2 : ℚ) / 3) = 0 := by norm_num [pytrunc]
    rw [show ((2 : ℕ) : ℚ) = (2 : ℚ) by norm_num, h23]
    decide
  have hout : AdbEnhanced.generate_curved_path 0 0 30 40 2 50
      { curve_intensity := 1 / 10, offset := 0, noise_x := fun _ => 0,
        noise_y := fun _ => 0 } =
      [(0, 0), (1, 2), (15, 20), (28, 37), (30, 40)] := by
    norm_num [AdbEnhanced.generate_curved_path, hn5,
      AdbEnhanced.curved_point, AdbEnhanced.control_point,
      AdbEnhanced.ease_in_out_cubic, pytrunc, List.range_succ]
  have h := C7_curved_path_endpoints 0 0 30 40 2 50
    { curve_intensity := 1 / 10, offset := 0, noise_x := fun _ => 0,
      noise_y := fun _ => 0 } (by norm_num) (by norm_num)
    (fun w => by norm_num) (fun w => by norm_num)
  refine ⟨h.1, by rw [hout]; rfl, by rw [hout]; rfl, ?_⟩
  exact (h.2.2 (30, 40) (by rw [hout]; rfl)).1

/-! ## C8 / C9 — BehaviorInjector.generate_human_typing (behavior_injector.py)

The QWERTY adjacency table is built exactly as `_build_keyboard_layout` does:
explicit lowercase-and-digit entries, then uppercase entries derived by
upper-casing the alphabetic keys and their alphabetic neighbours.  Backspace
is the character `'\x08'` (Python `'\b'`). -/

namespace Behavior

/-- `TypingEvent` dataclass. -/
structure TypingEvent where
  char : Char
  delay_ms : ℤ
  is_correction : Bool := false
deriving DecidableEq

/-- The literal lowercase-and-digit adjacency entries of
`_build_keyboard_layout`. -/
def base_keyboard_layout : List (Char × List Char) :=
  [ ('q', ['w', 'a', 's']),
    ('w', ['q', 'e', 'a', 's', 'd']),
    ('e', ['w', 'r', 's', 'd', 'f']),
    ('r', ['e', 't', 'd', 'f', 'g']),
    ('t', ['r', 'y', 'f', 'g', 'h']),
    ('y', ['t', 'u', 'g', 'h', 'j']),
    ('u', ['y', 'i', 'h', 'j', 'k']),
    ('i', ['u', 'o', 'j', 'k', 'l']),
    ('o', ['i', 'p', 'k', 'l']),
    ('p', ['o', 'l']),
    ('a', ['q', 'w', 's', 'z', 'x']),
    ('s', ['q', 'w', 'e', 'a', 'd', 'z', 'x', 'c']),
    ('d', ['w', 'e', 'r', 's', 'f', 'x', 'c', 'v']),
    ('f', ['e', 'r', 't', 'd', 'g', 'c', 'v', 'b']),
    ('g', ['r', 't', 'y', 'f', 'h', 'v', 'b', 'n']),
    ('h', ['t', 'y', 'u', 'g', 'j', 'b', 'n', 'm']),
    ('j', ['y', 'u', 'i', 'h', 'k', 'n', 'm']),
    ('k', ['u', 'i', 'o', 'j', 'l', 'm']),
    ('l', ['i', 'o', 'p', 'k']),
    ('z', ['a', 's', 'x']),
    ('x', ['z', 'a', 's', 'd', 'c']),
    ('c', ['x', 's', 'd', 'f', 'v']),
    ('v', ['c', 'd', 'f', 'g', 'b']),
    ('b', ['v', 'f', 'g', 'h', 'n']),
    ('n', ['b', 'g', 'h', 'j', 'm']),
    ('m', ['n', 'h', 'j', 'k']),
    ('1', ['2', 'q']),
    ('2', ['1', '3', 'q', 'w']),
    ('3', ['2', '4', 'w', 'e']),
    ('4', ['3', '5', 'e', 'r']),
    ('5', ['4', '6', 'r', 't']),
    ('6', ['5', '7', 't', 'y']),
    ('7', ['6', '8', 'y', 'u']),
    ('8', ['7', '9', 'u', 'i']),
    ('9', ['8', '0', 'i', 'o']),
    ('0', ['9', 'o', 'p']) ]

/-- `_build_keyboard_layout`: the base table plus, for each alphabetic key,
an uppercase entry whose neighbours are the upper-cased alphabetic
neighbours of the lowercase key. -/
def build_keyboard_layout : List (Char × List Char) :=
  base_keyboard_layout ++
    ((base_keyboard_layout.filter (fun p => p.1.isAlpha)).map
      (fun p => (p.1.toUpper, (p.2.filter Char.isAlpha).map Char.toUpper)))

/-- `_get_nearby_key`: look the character up in the adjacency table; `None`
when it has no neighbours, otherwise the `random.choice` pick (the choice
index is supplied as a draw, reduced mod the neighbour count). -/
def get_nearby_key (pick : ℕ) (c : Char) : Option Char :=
  let neighbors := (build_keyboard_layout.lookup c).getD []
  if neighbors.isEmpty then none
  else some (neighbors.getD (pick % neighbors.length) 'q')

/-- Random draws consumed while typing character `i`: the `int(gauss)` delay
draw, the word-start and special-character `randint` extras, the
`random.random()` typo gate, the `random.choice` neighbour pick, and the
recognition/correction `randint` delays of a typo. -/
structure TypingRand where
  gauss : ℕ → ℤ
  word_extra : ℕ → ℤ
  special_extra : ℕ → ℤ
  err_draw : ℕ → ℚ
  pick : ℕ → ℕ
  recog_delay : ℕ → ℤ
  correct_delay : ℕ → ℤ

/-- The inter-key delay for character `i`: `int(gauss)` clamped into the
configured range, plus a word-start extra after a space (or at the very
start), plus an extra for uppercase or `!@#$%^&*()`. -/
def typing_delay (cfg : BehaviorConfig) (rand : TypingRand) (i : ℕ)
    (c : Char) (prev : Option Char) : ℤ :=
  let delay := max cfg.typing_delay_min_ms (min cfg.typing_delay_max_ms (rand.gauss i))
  let delay := if prev = some ' ' ∨ prev = none then delay + rand.word_extra i else delay
  if c.isUpper ∨ c ∈ ['!', '@', '#', '$', '%', '^', '&', '*', '(', ')'] then
    delay + rand.special_extra i
  else delay

/-- The events emitted for input character `i`: when the typo gate fires on
an alphanumeric character and an adjacent key differing from it exists, a
wrong character, a backspace (marked as correction) and the correct
character; otherwise the character itself. -/
def typing_chunk (cfg : BehaviorConfig) (rand : TypingRand) (error_rate : ℚ)
    (i : ℕ) (c : Char) (prev : Option Char) : List TypingEvent :=
  let delay := typing_delay cfg rand i c prev
  if rand.err_draw i < error_rate ∧ c.isAlphanum then
    match get_nearby_key (rand.pick i) c with
    | some wrong_char =>
      if wrong_char ≠ c then
        [⟨wrong_char, delay, false⟩, ⟨'\x08', rand.recog_delay i, true⟩,
          ⟨c, rand.correct_delay i, true⟩]
      else [⟨c, delay, false⟩]
    | none => [⟨c, delay, false⟩]
  else [⟨c, delay, false⟩]

/-- The typing loop over the remaining characters, carrying the running
index and the previous character. -/
def typing_aux (cfg : BehaviorConfig) (rand : TypingRand) (error_rate : ℚ) :
    List Char → ℕ → Option Char → List TypingEvent
  | [], _, _ => []
  | c :: rest, i, prev =>
    typing_chunk cfg rand error_rate i c prev ++
      typing_aux cfg rand error_rate rest (i + 1) (some c)

/-- `generate_human_typing(text, error_rate)`. -/
def generate_human_typing (cfg : BehaviorConfig) (rand : TypingRand)
    (text : List Char) (error_rate : ℚ) : List TypingEvent :=
  typing_aux cfg rand error_rate text 0 none

/-- How an event list types out an input text: each input character
contributes either itself as a plain event, or a wrong non-backspace
character, a backspace marked as correction, and then exactly that input
character. -/
inductive TypedAs : List Char → List TypingEvent → Prop where
  | nil : TypedAs [] []
  | plain (c : Char) (d : ℤ) {cs : List Char} {evs : List TypingEvent}
      (h : TypedAs cs evs) : TypedAs (c :: cs) (⟨c, d, false⟩ :: evs)
  | typo (c w : Char) (d r d2 : ℤ) (hw : w ≠ c) (hb : w ≠ '\x08')
      {cs : List Char} {evs : List TypingEvent} (h : TypedAs cs evs) :
      TypedAs (c :: cs)
        (⟨w, d, false⟩ :: ⟨'\x08', r, true⟩ :: ⟨c, d2, true⟩ :: evs)

theorem build_layout_no_backspace :
    build_keyboard_layout.all (fun p => p.2.all (fun w => w != '\x08')) = true := by
  decide

theorem lookup_mem {β : Type} (l : List (Char × β)) (a : Char) (b : β)
    (h : List.lookup a l = some b) : (a, b) ∈ l := by
  induction l with
  | nil => simp [List.lookup] at h
  | cons p rest ih =>
    obtain ⟨k, v⟩ := p
    by_cases hk : a == k
    · simp only [List.lookup, hk] at h
      injection h with h
      exact (List.mem_cons).mpr (Or.inl (by rw [eq_of_beq hk, h]))
    · simp only [List.lookup, Bool.not_eq_true] at h
      rw [Bool.not_eq_true] at hk
      rw [hk] at h
      exact List.mem_cons_of_mem _ (ih h)

theorem getD_mem {α : Type} (l : List α) (n : ℕ) (d : α) (h : n < l.length) :
    l.getD n d ∈ l := by
  induction l generalizing n with
  | nil => simp at h
  | cons x xs ih =>
    cases n with
    | zero => simp [List.getD]
    | succ n =>
      simp only [List.getD, List.get?_cons_succ] at *
      exact List.mem_cons_of_mem _ (ih n (by simpa using h))

theorem get_nearby_key_ne_backspace (pick : ℕ) (c w : Char)
    (h : get_nearby_key pick c = some w) : w ≠ '\x08' := by
  unfold get_nearby_key at h
  cases hq : List.lookup c build_keyboard_layout with
  | none =>
    rw [hq] at h
    simp at h
  | some l =>
    rw [hq] at h
    simp only [Option.getD_some] at h
    by_cases he : l.isEmpty
    · rw [if_pos he] at h
      exact absurd h (by simp)
    · rw [if_neg he] at h
      injection h with h
      have hne : l ≠ [] := by
        intro hh
        rw [hh] at he
        exact he rfl
      have hlen : 0 < l.length := List.length_pos.mpr hne
      have hmem := getD_mem l (pick % l.length) 'q' (Nat.mod_lt _ hlen)
      have hpair := lookup_mem _ _ _ hq
      have hall := build_layout_no_backspace
      rw [List.all_eq_true] at hall
      have hall2 := hall _ hpair
      rw [List.all_eq_true] at hall2
      have hwne := hall2 _ hmem
      rw [bne_iff_ne] at hwne
      rw [← h]
      exact hwne

theorem typing_chunk_cases (cfg : BehaviorConfig) (rand : TypingRand)
    (er : ℚ) (i : ℕ) (c : Char) (prev : Option Char) :
    (∃ d, typing_chunk cfg rand er i c prev = [⟨c, d, false⟩]) ∨
    (∃ w d r d2, w ≠ c ∧ w ≠ '\x08' ∧
      typing_chunk cfg rand er i c prev =
        [⟨w, d, false⟩, ⟨'\x08', r, true⟩, ⟨c, d2, true⟩]) := by
  unfold typing_chunk
  by_cases hcond : rand.err_draw i < er ∧ c.isAlphanum
  · rw [if_pos hcond]
    cases hnk : get_nearby_key (rand.pick i) c with
    | none => exact Or.inl ⟨_, rfl⟩
    | some w =>
      dsimp only
      by_cases hw : w ≠ c
      · exact Or.inr ⟨w, _, _, _, hw,
          get_nearby_key_ne_backspace _ _ _ hnk, by rw [if_pos hw]⟩
      · rw [if_neg hw]
        exact Or.inl ⟨_, rfl⟩
  · rw [if_neg hcond]
    exact Or.inl ⟨_, rfl⟩

theorem typing_aux_TypedAs (cfg : BehaviorConfig) (rand : TypingRand)
    (er : ℚ) : ∀ (text : List Char) (i : ℕ) (prev : Option Char),
    TypedAs text (typing_aux cfg rand er text i prev) := by
  intro text
  induction text with
  | nil => intro i prev; exact TypedAs.nil
  | cons c rest ih =>
    intro i prev
    rw [typing_aux]
    rcases typing_chunk_cases cfg rand er i c prev with ⟨d, hd⟩ |
      ⟨w, d, r, d2, hw, hb, hd⟩
    · rw [hd]
      simp only [List.cons_append, List.nil_append]
      exact TypedAs.plain c d (ih (i + 1) (some c))
    · rw [hd]
      simp only [List.cons_append, List.nil_append]
      exact TypedAs.typo c w d r d2 hw hb (ih (i + 1) (some c))

theorem TypedAs_backspace_flat {text : List Char} {evs : List TypingEvent}
    (h : TypedAs text evs) (hbs : '\x08' ∉ text) :
    ∀ k e, evs.get? k = some e → e.char = '\x08' →
      1 ≤ k ∧ ∃ prev nxt, evs.get? (k - 1) = some prev ∧
        evs.get? (k + 1) = some nxt ∧
        prev.is_correction = false ∧ nxt.is_correction = true ∧
        prev.char ≠ nxt.char ∧ nxt.char ≠ '\x08' := by
  induction h with
  | nil => intro k e hk; simp at hk
  | plain c d h ih =>
    have hcne : c ≠ '\x08' := fun hh => hbs (hh ▸ List.mem_cons_self _ _)
    have hbs' : '\x08' ∉ _ := fun hh => hbs (List.mem_cons_of_mem _ hh)
    intro k e hk hc
    cases k with
    | zero =>
      rw [List.get?_cons_zero] at hk
      injection hk with hk
      rw [← hk] at hc
      exact absurd hc hcne
    | succ k =>
      rw [List.get?_cons_succ] at hk
      obtain ⟨hk1, prev, nxt, hp, hn2, hpc, hnc, hne, hnb⟩ := ih hbs' k e hk hc
      obtain ⟨k', rfl⟩ : ∃ k', k = k' + 1 := ⟨k - 1, by omega⟩
      refine ⟨by omega, prev, nxt, ?_, ?_, hpc, hnc, hne, hnb⟩
      · show List.get? _ (k' + 1) = some prev
        rw [List.get?_cons_succ]
        simpa using hp
      · rw [List.get?_cons_succ]
        exact hn2
  | typo c w d r d2 hw hb h ih =>
    have hcne : c ≠ '\x08' := fun hh => hbs (hh ▸ List.mem_cons_self _ _)
    have hbs' : '\x08' ∉ _ := fun hh => hbs (List.mem_cons_of_mem _ hh)
    intro k e hk hc
    cases k with
    | zero =>
      rw [List.get?_cons_zero] at hk
      injection hk with hk
      rw [← hk] at hc
      exact absurd hc hb
    | succ k1 =>
      cases k1 with
      | zero =>
        exact ⟨le_refl 1, ⟨w, d, false⟩, ⟨c, d2, true⟩, rfl, rfl, rfl, rfl,
          fun hh => hw (by simpa using hh), hcne⟩
      | succ k2 =>
        cases k2 with
        | zero =>
          rw [List.get?_cons_succ, List.get?_cons_succ, List.get?_cons_zero] at hk
          injection hk with hk
          rw [← hk] at hc
          exact absurd hc hcne
        | succ k3 =>
          rw [List.get?_cons_succ, List.get?_cons_succ, List.get?_cons_succ] at hk
          obtain ⟨hk1, prev, nxt, hp, hn2, hpc, hnc, hne, hnb⟩ := ih hbs' k3 e hk hc
          obtain ⟨k', rfl⟩ : ∃ k', k3 = k' + 1 := ⟨k3 - 1, by omega⟩
          refine ⟨by omega, prev, nxt, ?_, ?_, hpc, hnc, hne, hnb⟩
          · show List.get? _ (k' + 3) = some prev
            rw [List.get?_cons_succ, List.get?_cons_succ, List.get?_cons_succ]
            simpa using hp
          · show List.get? _ (k' + 5) = some nxt
            rw [List.get?_cons_succ, List.get?_cons_succ, List.get?_cons_succ]
            exact hn2

theorem typing_chunk_error_zero (cfg : BehaviorConfig) (rand : TypingRand)
    (i : ℕ) (c : Char) (prev : Option Char) (hdraw : 0 ≤ rand.err_draw i) :
    typing_chunk cfg rand 0 i c prev =
      [⟨c, typing_delay cfg rand i c prev, false⟩] := by
  unfold typing_chunk
  rw [if_neg]
  rintro ⟨h1, -⟩
  exact absurd h1 (not_lt.mpr hdraw)

theorem typing_aux_error_zero (cfg : BehaviorConfig) (rand : TypingRand)
    (hdraw : ∀ i, 0 ≤ rand.err_draw i) :
    ∀ (text : List Char) (i : ℕ) (prev : Option Char),
      (typing_aux cfg rand 0 text i prev).map TypingEvent.char = text ∧
      ∀ e ∈ typing_aux cfg rand 0 text i prev, e.is_correction = false := by
  intro text
  induction text with
  | nil => intro i prev; exact ⟨rfl, by simp [typing_aux]⟩
  | cons c rest ih =>
    intro i prev
    rw [typing_aux, typing_chunk_error_zero cfg rand i c prev (hdraw i)]
    obtain ⟨ih1, ih2⟩ := ih (i + 1) (some c)
    constructor
    · simp only [List.cons_append, List.nil_append, List.map_cons, ih1]
    · intro e he
      simp only [List.cons_append, List.nil_append, List.mem_cons] at he
      rcases he with rfl | he
      · rfl
      · exact ih2 e he

end Behavior

/-- C8 (counterexample): with error_rate = 0 and an input text consisting of
the backspace character itself, the synthesized sequence is a single event
whose char is the backspace — so the claim's "no backspace events" fails on
texts containing a literal backspace, even though nothing was typo-corrected. -/
theorem C8_typing_counterexample :
    (Behavior.generate_human_typing { }
      { gauss := fun _ => 100, word_extra := fun _ => 100,
        special_extra := fun _ => 50, err_draw := fun _ => 1 / 2,
        pick := fun _ => 0, recog_delay := fun _ => 200,
        correct_delay := fun _ => 80 }
      ['\x08'] 0).map Behavior.TypingEvent.char = ['\x08'] := by
  rw [Behavior.generate_human_typing, Behavior.typing_aux,
    Behavior.typing_chunk_error_zero _ _ _ _ _ (by norm_num),
    Behavior.typing_aux]
  rfl

/-- C8 (amended): for every input text containing no literal backspace
character, every draw of the random source, and error_rate = 0 (the typo
gate `random.random() < 0` never fires), typing synthesis emits exactly one
event per input character, in order, whose char fields concatenate to the
input text, with no backspace events and no events marked as corrections. -/
theorem C8_typing_error_zero (cfg : Behavior.BehaviorConfig)
    (rand : Behavior.TypingRand) (text : List Char) (er : ℚ) (her : er = 0)
    (hdraw : ∀ i, 0 ≤ rand.err_draw i) (hbs : '\x08' ∉ text) :
    (Behavior.generate_human_typing cfg rand text er).map
      Behavior.TypingEvent.char = text ∧
    (Behavior.generate_human_typing cfg rand text er).length = text.length ∧
    ∀ e ∈ Behavior.generate_human_typing cfg rand text er,
      e.is_correction = false ∧ e.char ≠ '\x08' := by
  subst her
  have h := Behavior.typing_aux_error_zero cfg rand hdraw text 0 none
  have hlen : (Behavior.generate_human_typing cfg rand text 0).length =
      text.length := by
    calc (Behavior.generate_human_typing cfg rand text 0).length
        = ((Behavior.typing_aux cfg rand 0 text 0 none).map
            Behavior.TypingEvent.char).length := (List.length_map _ _).symm
      _ = text.length := by rw [h.1]
  refine ⟨h.1, hlen, ?_⟩
  intro e he
  refine ⟨h.2 e he, fun hc => hbs ?_⟩
  have hmem : e.char ∈ text := by
    rw [← h.1]
    exact List.mem_map_of_mem _ he
  rw [← hc]
  exact hmem

/-- C8 witness: typing "hi" with error_rate 0. -/
theorem C8_typing_error_zero_witness :
    (Behavior.generate_human_typing { }
      { gauss := fun _ => 100, word_extra := fun _ => 100,
        special_extra := fun _ => 50, err_draw := fun _ => 1 / 2,
        pick := fun _ => 0, recog_delay := fun _ => 200,
        correct_delay := fun _ => 80 }
      ['h', 'i'] 0).map Behavior.TypingEvent.char = ['h', 'i'] :=
  (C8_typing_error_zero { }
    { gauss := fun _ => 100, word_extra := fun _ => 100,
      special_extra := fun _ => 50, err_draw := fun _ => 1 / 2,
      pick := fun _ => 0, recog_delay := fun _ => 200,
      correct_delay := fun _ => 80 }
    ['h', 'i'] 0 rfl (fun i => by norm_num) (by decide)).1

/-- C9 (counterexample): with error_rate = 1/2 > 0 and the input text being
the backspace character itself, the synthesized sequence is the single
event ['\x08'] — a backspace event with no preceding character event at all,
refuting the claim for texts containing a literal backspace. -/
theorem C9_typing_counterexample :
    (Behavior.generate_human_typing { }
      { gauss := fun _ => 100, word_extra := fun _ => 100,
        special_extra := fun _ => 50, err_draw := fun _ => 0,
        pick := fun _ => 0, recog_delay := fun _ => 200,
        correct_delay := fun _ => 80 }
      ['\x08'] (1 / 2)).map Behavior.TypingEvent.char = ['\x08'] := by
  rw [Behavior.generate_human_typing, Behavior.typing_aux, Behavior.typing_chunk]
  rw [if_neg (by rintro ⟨-, h2⟩; exact absurd h2 (by decide))]
  rw [Behavior.typing_aux]
  rfl

/-- C9 (amended): for every input text containing no literal backspace
character, every error rate and every draw of the random source, the output
types the text chunk by chunk (`TypedAs`): every backspace event sits inside
a typo triple whose first event carries an adjacent key differing from the
input character at the current position and whose third event carries
exactly that input character; consequently every backspace event has an
immediate predecessor (a non-correction event with a different char) and an
immediate successor (the correcting event with the input character,
never itself a backspace). -/
theorem C9_typing_backspace_pattern (cfg : Behavior.BehaviorConfig)
    (rand : Behavior.TypingRand) (text : List Char) (er : ℚ)
    (hbs : '\x08' ∉ text) :
    Behavior.TypedAs text (Behavior.generate_human_typing cfg rand text er) ∧
    ∀ k e, (Behavior.generate_human_typing cfg rand text er).get? k = some e →
      e.char = '\x08' →
      1 ≤ k ∧ ∃ prev nxt,
        (Behavior.generate_human_typing cfg rand text er).get? (k - 1) =
          some prev ∧
        (Behavior.generate_human_typing cfg rand text er).get? (k + 1) =
          some nxt ∧
        prev.is_correction = false ∧ nxt.is_correction = true ∧
        prev.char ≠ nxt.char ∧ nxt.char ≠ '\x08' := by
  have ht := Behavior.typing_aux_TypedAs cfg rand er text 0 none
  exact ⟨ht, Behavior.TypedAs_backspace_flat ht hbs⟩

/-- C9 witness: typing "ab" with error_rate 1 and a typo gate that always
fires; both characters go through the wrong-key/backspace/correct triple. -/
theorem C9_typing_backspace_pattern_witness :
    Behavior.TypedAs ['a', 'b']
      (Behavior.generate_human_typing { }
        { gauss := fun _ => 100, word_extra := fun _ => 100,
          special_extra := fun _ => 50, err_draw := fun _ => 0,
          pick := fun _ => 0, recog_delay := fun _ => 200,
          correct_delay := fun _ => 80 }
        ['a', 'b'] 1) :=
  (C9_typing_backspace_pattern { }
    { gauss := fun _ => 100, word_extra := fun _ => 100,
      special_extra := fun _ => 50, err_draw := fun _ => 0,
      pick := fun _ => 0, recog_delay := fun _ => 200,
      correct_delay := fun _ => 80 }
    ['a', 'b'] 1 (by decide)).1

